import Mathlib

/-
Verification development for the HPM-MVS++ orchestration code (HPM.cpp).
The host-side routines are shallowly embedded: IEEE float values are
modelled as either a rational number or the not-a-number marker, machine
integers as Int/Nat, and the accelerator kernels (whose sources live in a
separate .cu file) as explicit function parameters giving the per-pixel
samples they return.
-/

namespace HPMMVS

/-- Abstract IEEE floating value: either not-a-number or an (exactly
represented) finite value.  The C idiom `x != x` holds exactly on NaN,
which is what `FVal.isNaN` decides. -/
inductive FVal where
  | nan : FVal
  | fin : ℚ → FVal
deriving DecidableEq

/-- The self-inequality NaN test used by the host post-passes. -/
def FVal.isNaN : FVal → Bool
  | .nan => true
  | .fin _ => false

/-- A `cv::Mat_<float>`: row count, column count, and the sample at
(row, col).  Out-of-range reads of the underlying C++ matrix are
undefined behaviour; the total function returns an arbitrary modelled
value there, and the theorems below only depend on in-range entries. -/
structure GridF where
  rows : Nat
  cols : Nat
  entry : Nat → Nat → FVal

/-- A `cv::Mat_<cv::Vec3f>` holding one 3-vector per pixel. -/
structure NormalGridF where
  rows : Nat
  cols : Nat
  entry : Nat → Nat → FVal × FVal × FVal

/-- RunJBU (HPM.cpp lines 1224-1276), host side.  `depth_h` is the buffer
read back from the accelerator pass (`jbu.CudaRun()` lives in the .cu
file and is abstracted as a parameter).  When the integer scale factor is
1 the function returns early and produces no depth map (`none`);
otherwise it builds the output map, replacing any sample that fails the
self-equality test by the coarse sample at the integer-divided
coordinates before the value is stored. -/
def runJBU (scaledImage srcDepthmap : GridF) (depth_h : Nat → FVal) :
    Option GridF :=
  let rows := scaledImage.rows
  let cols := scaledImage.cols
  let imagescale := max (rows / srcDepthmap.rows) (cols / srcDepthmap.cols)
  if imagescale = 1 then none
  else
    some { rows := rows, cols := cols,
           entry := fun j i =>
             if j < rows ∧ i < cols then
               let center := i + cols * j
               if (depth_h center).isNaN then
                 srcDepthmap.entry (j / 2) (i / 2)
               else depth_h center
             else FVal.fin 0 }

/-- HPM::JointBilateralUpsampling_prior (HPM.cpp lines 1280-1349), host
side.  `depth_h` and `normal_h` are the buffers read back from the
accelerator pass (`jbu_prior.CudaRun_prior()`).  When the integer scale
factor is 1 the function returns early, leaving the caller-supplied
output maps untouched.  Otherwise, for each pixel the loop body first
performs the conditional fallback stores (coarse depth and normal at the
integer-divided coordinates when the sample is NaN) and then performs
the unconditional stores of the accelerator samples, which overwrite the
fallback: the committed value is always the raw accelerator sample. -/
def jointBilateralUpsamplingPrior (scaledImage srcDepthmap : GridF)
    (srcNormal : NormalGridF) (upsampleDepthmap : GridF)
    (upsampleNormal : NormalGridF) (depth_h : Nat → FVal)
    (normal_h : Nat → FVal × FVal × FVal) : GridF × NormalGridF :=
  let rows := scaledImage.rows
  let cols := scaledImage.cols
  let imagescale := max (rows / srcDepthmap.rows) (cols / srcDepthmap.cols)
  if imagescale = 1 then (upsampleDepthmap, upsampleNormal)
  else
    ({ rows := upsampleDepthmap.rows, cols := upsampleDepthmap.cols,
       entry := fun j i =>
         if j < rows ∧ i < cols then
           let center := i + cols * j
           -- value after the conditional fallback store of the loop body
           let _afterFallback :=
             if (depth_h center).isNaN then
               srcDepthmap.entry (j / 2) (i / 2)
             else upsampleDepthmap.entry j i
           -- the store that follows unconditionally in the source
           depth_h center
         else upsampleDepthmap.entry j i },
     { rows := upsampleNormal.rows, cols := upsampleNormal.cols,
       entry := fun j i =>
         if j < rows ∧ i < cols then
           let center := i + cols * j
           let _afterFallback :=
             if (depth_h center).isNaN then
               srcNormal.entry (j / 2) (i / 2)
             else upsampleNormal.entry j i
           normal_h center
         else upsampleNormal.entry j i })

/-- Guidance image used by the concrete NaN-fallback evaluation: 2 by 2,
all samples 3. -/
def cexImg : GridF := { rows := 2, cols := 2, entry := fun _ _ => FVal.fin 3 }

/-- Coarse depth map used by the concrete NaN-fallback evaluation: 1 by 1,
everywhere the finite value 7. -/
def cexSrc : GridF := { rows := 1, cols := 1, entry := fun _ _ => FVal.fin 7 }

/-- Coarse normal map paired with `cexSrc`. -/
def cexSrcNormal : NormalGridF :=
  { rows := 1, cols := 1, entry := fun _ _ => (FVal.fin 1, FVal.fin 0, FVal.fin 0) }

/-- Caller-supplied output depth buffer for the prior-variant evaluation. -/
def cexUpDepth : GridF := { rows := 2, cols := 2, entry := fun _ _ => FVal.fin 0 }

/-- Caller-supplied output normal buffer for the prior-variant evaluation. -/
def cexUpNormal : NormalGridF :=
  { rows := 2, cols := 2, entry := fun _ _ => (FVal.fin 0, FVal.fin 0, FVal.fin 0) }

/-! Support-point selection (HPM::GetSupportPoints_Classify_Check,
HPM.cpp lines 984-1031).  The per-pixel fields are functions of
(row, col), matching the `costs(r, c)` access convention of the source.
The source derives `width` and `height` from the reference camera
resolution times `hpm_factor`; the embedding takes the resulting bounds
directly as parameters. -/

/-- Scan state of one 5 by 5 tile: the two running minima with the pixel
coordinates (stored as cv::Point, that is (x, y) = (col, row)) at which
they were reached, plus the texture flag the source computes (and never
reads afterwards). -/
structure TileScan where
  minCostNoTexture : ℚ
  minCostTexture : ℚ
  tempPointNoTexture : Nat × Nat
  tempPointTexture : Nat × Nat
  textureFlag : Bool
deriving DecidableEq

/-- Initial tile state: both minima at 2.0, default points (0, 0),
texture flag false. -/
def tileScanInit : TileScan :=
  { minCostNoTexture := 2, minCostTexture := 2,
    tempPointNoTexture := (0, 0), tempPointTexture := (0, 0),
    textureFlag := false }

/-- One step of the inner tile scan, at pixel `p = (c, r)`.  Mirrors the
body of the nested c/r loops: set the texture flag when the texture
sample exceeds 0.5, and for pixels with photometric cost below 2.0
update both running minima, the no-texture one with cost minus
confidence and the texture one with cost plus 0.2 minus confidence.
Both minima range over all pixels of the tile; the texture flag does not
gate either update. -/
def tileScanStep (costs confidences texture : Nat → Nat → ℚ)
    (s : TileScan) (p : Nat × Nat) : TileScan :=
  let c := p.1
  let r := p.2
  let s1 := if texture r c > 0.5 then { s with textureFlag := true } else s
  let photometric_cost := costs r c
  let confidence := confidences r c
  if photometric_cost < 2 then
    let final_cost_no_texture := photometric_cost - confidence
    let final_cost_texture := photometric_cost + 0.2 - confidence
    let s2 :=
      if s1.minCostNoTexture > final_cost_no_texture then
        { s1 with tempPointNoTexture := (c, r),
                  minCostNoTexture := final_cost_no_texture }
      else s1
    if s2.minCostTexture > final_cost_texture then
      { s2 with tempPointTexture := (c, r),
                minCostTexture := final_cost_texture }
    else s2
  else s1

/-- Pixels of the tile anchored at (col, row), in source iteration order:
c ascending in [col, min width (col+5)), and for each c, r ascending in
[row, min height (row+5)). -/
def tilePixels (width height col row : Nat) : List (Nat × Nat) :=
  (List.range' col (min width (col + 5) - col)).flatMap
    (fun c => (List.range' row (min height (row + 5) - row)).map
      (fun r => (c, r)))

/-- Emission step after the tile scan: the texture candidate is pushed
when its minimum is below 0.1, then the no-texture candidate when its
minimum is below 0.1. -/
def tileEmit (s : TileScan) : List (Nat × Nat) :=
  (if s.minCostTexture < 0.1 then [s.tempPointTexture] else []) ++
  (if s.minCostNoTexture < 0.1 then [s.tempPointNoTexture] else [])

/-- Support points contributed by one tile: the scan followed by the
emission step. -/
def tileOutput (width height : Nat)
    (costs confidences texture : Nat → Nat → ℚ) (col row : Nat) :
    List (Nat × Nat) :=
  tileEmit ((tilePixels width height col row).foldl
    (tileScanStep costs confidences texture) tileScanInit)

/-- Tile anchor coordinates 0, 5, 10, ... below `n`. -/
def tileStarts (n : Nat) : List Nat :=
  (List.range ((n + 4) / 5)).map (fun k => 5 * k)

/-- GetSupportPoints_Classify_Check: tiles are visited with the column
anchor in the outer loop and the row anchor in the inner loop, each tile
appending its accepted candidates. -/
def getSupportPoints (width height : Nat)
    (costs confidences texture : Nat → Nat → ℚ) : List (Nat × Nat) :=
  (tileStarts width).flatMap (fun col =>
    (tileStarts height).flatMap (fun row =>
      tileOutput width height costs confidences texture col row))

/-! Spec-side variant of the support-point selection, used only to
compare the source behaviour with the specified one.  It follows the
spec wording: within each tile separately track the lowest adjusted-cost
pixel among textured pixels (adjusted cost = photometric cost + 0.2 -
confidence) and among non-textured pixels (adjusted cost = photometric
cost - confidence), texturedness decided by the texture field; accept a
candidate only if its adjusted cost is below 0.1. -/

/-- Spec-side tile state: optional running minimum and argmin for the
textured and the non-textured class. -/
structure TileScanSpec where
  minTextured : Option (ℚ × (Nat × Nat))
  minUntextured : Option (ℚ × (Nat × Nat))
deriving DecidableEq

/-- One step of the spec-side tile scan at pixel `p = (c, r)`: the pixel
updates exactly the tracker of its own texture class. -/
def tileScanStepSpec (costs confidences texture : Nat → Nat → ℚ)
    (s : TileScanSpec) (p : Nat × Nat) : TileScanSpec :=
  let c := p.1
  let r := p.2
  if texture r c > 0.5 then
    let adjusted := costs r c + 0.2 - confidences r c
    match s.minTextured with
    | none => { s with minTextured := some (adjusted, (c, r)) }
    | some (m, _) =>
      if adjusted < m then { s with minTextured := some (adjusted, (c, r)) }
      else s
  else
    let adjusted := costs r c - confidences r c
    match s.minUntextured with
    | none => { s with minUntextured := some (adjusted, (c, r)) }
    | some (m, _) =>
      if adjusted < m then { s with minUntextured := some (adjusted, (c, r)) }
      else s

/-- Spec-side emission step: each candidate accepted when its adjusted
cost is below 0.1, textured candidate first. -/
def tileEmitSpec (s : TileScanSpec) : List (Nat × Nat) :=
  (match s.minTextured with
   | some (m, pt) => if m < 0.1 then [pt] else []
   | none => []) ++
  (match s.minUntextured with
   | some (m, pt) => if m < 0.1 then [pt] else []
   | none => [])

/-- Spec-side per-tile output. -/
def tileOutputSpec (width height : Nat)
    (costs confidences texture : Nat → Nat → ℚ) (col row : Nat) :
    List (Nat × Nat) :=
  tileEmitSpec ((tilePixels width height col row).foldl
    (tileScanStepSpec costs confidences texture) ⟨none, none⟩)

/-- Spec-side support-point selection over the same tiling. -/
def getSupportPointsSpecPartitioned (width height : Nat)
    (costs confidences texture : Nat → Nat → ℚ) : List (Nat × Nat) :=
  (tileStarts width).flatMap (fun col =>
    (tileStarts height).flatMap (fun row =>
      tileOutputSpec width height costs confidences texture col row))

/-- Texture field of the concrete comparison input: pixel (r, c) = (0, 0)
is textured, all others are not. -/
def cexTexture : Nat → Nat → ℚ := fun r c => if r = 0 ∧ c = 0 then 1 else 0

/-- Cost field of the concrete comparison input: 1.9 at (0, 0), 0.5
elsewhere. -/
def cexCosts : Nat → Nat → ℚ := fun r c => if r = 0 ∧ c = 0 then 19/10 else 1/2

/-- Confidence field of the concrete comparison input: 0 at (0, 0), 0.7
elsewhere. -/
def cexConfidences : Nat → Nat → ℚ := fun r c => if r = 0 ∧ c = 0 then 0 else 7/10

/-- Synthetic field of the spec: in the single 5 by 5 tile, pixel (0, 0)
has adjusted cost 1/20 = 0.05 (cost 1/20, confidence 0) and every other
pixel has adjusted cost 1/2 = 0.5.  No pixel is textured. -/
def synthCosts : Nat → Nat → ℚ := fun r c => if r = 0 ∧ c = 0 then 1/20 else 1/2

/-- Confidence field of the synthetic input: identically 0. -/
def synthConfidences : Nat → Nat → ℚ := fun _ _ => 0

/-- Texture field of the synthetic input: identically 0. -/
def synthTexture : Nat → Nat → ℚ := fun _ _ => 0

/-! Prior-plane fitting (HPM::GetPriorPlaneParams and
HPM::GetPriorPlaneParams_factor, HPM.cpp lines 1057-1125).  Both
routines build the homogeneous 3 by 4 system from the back-projected
triangle vertices, obtain a least-squares null vector from the external
solver (cv::SVD::solveZ), and then normalize it in place.  The solver is
outside this translation unit, so the normalization is embedded as a
function of an arbitrary solver output vector. -/

/-- A float4 plane parameter vector. -/
structure Vec4Q where
  x : ℚ
  y : ℚ
  z : ℚ
  w : ℚ
deriving DecidableEq

/-- Componentwise scaling of a plane parameter vector; two null vectors
of the same rank-3 homogeneous system differ exactly by such a nonzero
scaling. -/
def Vec4Q.scale (c : ℚ) (v : Vec4Q) : Vec4Q :=
  ⟨c * v.x, c * v.y, c * v.z, c * v.w⟩

/-- The signed divisor computed by the source: the Euclidean norm of the
spatial part, negated when the offset component is negative
(`norm2 *= -1` under `n4.w < 0`).  The library square root is embedded
as an oracle argument `sqrtVal`; the theorems constrain it to be the
nonnegative root of the spatial squared norm, which characterizes it
uniquely. -/
def planeNorm2 (v : Vec4Q) (sqrtVal : ℚ) : ℚ :=
  if v.w < 0 then -sqrtVal else sqrtVal

/-- The normalization performed on the solver output of
GetPriorPlaneParams / GetPriorPlaneParams_factor: all four components
are divided by the signed norm `planeNorm2`. -/
def normalizePlaneVec (v : Vec4Q) (sqrtVal : ℚ) : Vec4Q :=
  ⟨v.x / planeNorm2 v sqrtVal, v.y / planeNorm2 v sqrtVal,
   v.z / planeNorm2 v sqrtVal, v.w / planeNorm2 v sqrtVal⟩

/-! Binary depth/normal container (readDepthDmb, writeDepthDmb,
readNormalDmb, writeNormalDmb, HPM.cpp lines 278-394).  A file is a
header of four 32-bit signed integers (type tag, height, width, channel
count) followed by raw 32-bit samples; samples are carried as
uninterpreted bit patterns (naturals), which the round trip copies
without interpreting them.
`none` in place of a file stands for a path that cannot be opened. -/

/-- Wrap an integer to the value range of a 32-bit signed integer, the
type of the header fields and of the computed data sizes. -/
def toInt32 (n : Int) : Int := (n + 2 ^ 31) % 2 ^ 32 - 2 ^ 31

/-- A .dmb file: header fields plus the raw samples that follow it. -/
structure DmbFile where
  type : Int
  h : Int
  w : Int
  nb : Int
  data : List Nat
deriving DecidableEq

/-- A single-channel float matrix, samples row-major as bit patterns. -/
structure MatF where
  rows : Nat
  cols : Nat
  data : List Nat
deriving DecidableEq

/-- A three-channel float matrix, samples row-major, three per pixel. -/
structure MatV3 where
  rows : Nat
  cols : Nat
  data : List Nat
deriving DecidableEq

/-- writeDepthDmb: emits type tag 1, the dimensions, channel count 1,
and `w * h * nb` samples (the size computed in 32-bit arithmetic). -/
def writeDepthDmb (depth : MatF) : DmbFile :=
  { type := 1, h := depth.rows, w := depth.cols, nb := 1,
    data := depth.data.take
      (toInt32 ((depth.cols : Int) * (depth.rows : Int) * 1)).toNat }

/-- writeNormalDmb: same layout with channel count 3. -/
def writeNormalDmb (normal : MatV3) : DmbFile :=
  { type := 1, h := normal.rows, w := normal.cols, nb := 3,
    data := normal.data.take
      (toInt32 ((normal.cols : Int) * (normal.rows : Int) * 3)).toNat }

/-- readDepthDmb: returns -1 when the file cannot be opened or the type
tag is not 1 (the output matrix is then left untouched, modelled as
`none`); otherwise returns 0 with a zero-initialized h by w matrix whose
first `h * w * nb` samples (32-bit size) are filled from the file, the
remainder keeping the zero bit pattern when the file is short. -/
def readDepthDmbFile (file : Option DmbFile) : Int × Option MatF :=
  match file with
  | none => (-1, none)
  | some d =>
    if d.type ≠ 1 then (-1, none)
    else
      let dataSize := toInt32 (d.h * d.w * d.nb)
      let rows := d.h.toNat
      let cols := d.w.toNat
      let filled := d.data.take dataSize.toNat
      (0, some { rows := rows, cols := cols,
                 data := filled ++ List.replicate (rows * cols - filled.length) 0 })

/-- readNormalDmb: identical control flow over a three-channel matrix
(zero-initialized to `rows * cols * 3` samples). -/
def readNormalDmbFile (file : Option DmbFile) : Int × Option MatV3 :=
  match file with
  | none => (-1, none)
  | some d =>
    if d.type ≠ 1 then (-1, none)
    else
      let dataSize := toInt32 (d.h * d.w * d.nb)
      let rows := d.h.toNat
      let cols := d.w.toNat
      let filled := d.data.take dataSize.toNat
      (0, some { rows := rows, cols := cols,
                 data := filled ++ List.replicate (rows * cols * 3 - filled.length) 0 })

/-! Camera model and the two image/camera rescaling sites
(RescaleImageAndCamera, HPM.cpp lines 173-194, and the scaling loop of
HPM::InuputInitialization, lines 610-641). -/

/-- A calibration record: 3 by 3 intrinsic matrix K and rotation R
stored row-major as 9 entries, translation t, image dimensions, and the
depth range. -/
structure Camera where
  K : Fin 9 → ℚ
  R : Fin 9 → ℚ
  t : Fin 3 → ℚ
  height : Int
  width : Int
  depth_min : ℚ
  depth_max : ℚ

/-- The update of the four intrinsic entries performed at both rescaling
sites: K[0] and K[2] scale with the horizontal factor, K[4] and K[5]
with the vertical one, the rest are untouched. -/
def rescaleK (K : Fin 9 → ℚ) (scale_x scale_y : ℚ) : Fin 9 → ℚ :=
  fun i =>
    if i = 0 then K 0 * scale_x
    else if i = 2 then K 2 * scale_x
    else if i = 4 then K 4 * scale_y
    else if i = 5 then K 5 * scale_y
    else K i

/-- RescaleImageAndCamera: when the target resolution (taken from the
depth map) equals the source image resolution the image is cloned and
the camera is returned untouched; otherwise the image is resized to
(dCols, dRows) and the camera record is updated jointly with it. -/
def rescaleImageAndCamera (srcCols srcRows dCols dRows : Int)
    (camera : Camera) : Camera :=
  if dCols = srcCols ∧ dRows = srcRows then camera
  else
    let scale_x : ℚ := (dCols : ℚ) / (srcCols : ℚ)
    let scale_y : ℚ := (dRows : ℚ) / (srcRows : ℚ)
    { camera with
      K := rescaleK camera.K scale_x scale_y,
      width := dCols,
      height := dRows }

/-- One iteration of the scaling loop of InuputInitialization for an
image of size (cols, rows): images already within `maxImageSize` are
skipped (`continue`); otherwise the image is shrunk by the smaller of
the two axis factors, rounding the new dimensions, and the camera is
updated with the realized scale factors and the resized dimensions. -/
def inuputInitializationRescale (maxImageSize cols rows : Int)
    (camera : Camera) : Camera :=
  if cols ≤ maxImageSize ∧ rows ≤ maxImageSize then camera
  else
    let factor_x : ℚ := (maxImageSize : ℚ) / (cols : ℚ)
    let factor_y : ℚ := (maxImageSize : ℚ) / (rows : ℚ)
    let factor : ℚ := min factor_x factor_y
    let new_cols : Int := round ((cols : ℚ) * factor)
    let new_rows : Int := round ((rows : ℚ) * factor)
    let scale_x : ℚ := (new_cols : ℚ) / (cols : ℚ)
    let scale_y : ℚ := (new_rows : ℚ) / (rows : ℚ)
    { camera with
      K := rescaleK camera.K scale_x scale_y,
      height := new_rows,
      width := new_cols }

/-! Depth search range (HPM::InuputInitialization lines 643-649 and the
accessors HPM::GetMinDepth / HPM::GetMaxDepth, lines 974-982). -/

/-- The engine parameter fields relevant to the depth search range. -/
structure PatchMatchParams where
  depth_min : ℚ
  depth_max : ℚ

/-- The assignment performed by InuputInitialization: the stated range
of the reference camera (cameras[0]) widened by the fixed factors 0.6
and 1.2. -/
def inuputInitializationDepthRange (cam0 : Camera)
    (params : PatchMatchParams) : PatchMatchParams :=
  { params with
    depth_min := cam0.depth_min * 0.6,
    depth_max := cam0.depth_max * 1.2 }

/-- HPM::GetMinDepth. -/
def GetMinDepth (params : PatchMatchParams) : ℚ := params.depth_min

/-- HPM::GetMaxDepth. -/
def GetMaxDepth (params : PatchMatchParams) : ℚ := params.depth_max

/-! Hierarchical initialization (the params.hierarchy block of
HPM::CudaSpaceInitialization, HPM.cpp lines 807-863). -/

/-- A float4 plane hypothesis slot. -/
structure Float4Q where
  x : ℚ
  y : ℚ
  z : ℚ
  w : ℚ
deriving DecidableEq

/-- The hierarchy block of CudaSpaceInitialization: `width` and `height`
are the stored normal-map column and row counts; the upsample flag is
computed by the source condition
`width != images[0].rows || height != images[0].cols`, and each scaled
plane hypothesis takes its normal from the stored normal map and its
fourth component from the stored cost map when the flag is set, from the
stored depth map otherwise.  The hypothesis field is indexed here by
(row, col). -/
def cudaSpaceInitHierarchy (refNormalCols refNormalRows imgRows imgCols : Int)
    (refNormal : Nat → Nat → ℚ × ℚ × ℚ) (refCost refDepth : Nat → Nat → ℚ) :
    Bool × (Nat → Nat → Float4Q) :=
  let width := refNormalCols
  let height := refNormalRows
  let upsample := (width != imgRows) || (height != imgCols)
  (upsample,
   fun row col =>
     { x := (refNormal row col).1,
       y := (refNormal row col).2.1,
       z := (refNormal row col).2.2,
       w := if upsample then refCost row col else refDepth row col })

/-! Device buffer lifecycle (HPM::CudaSpaceInitialization allocations,
HPM.cpp lines 699-864, and the frees of HPM::~HPM, lines 102-144).
Each `cudaMalloc`/`cudaMallocArray`/`cudaCreateTextureObject` target and
each `cudaFree`/`cudaFreeArray`/`cudaDestroyTextureObject` target is
recorded as a symbolic event, in source order. -/

/-- The device-resident buffers named in the lifecycle routines. -/
inductive CudaBuf where
  | texObjects
  | camerasBuf
  | planeHyps
  | costsBuf
  | preCosts
  | randStates
  | selectedViews
  | depthsBuf
  | texDepths
  | scaledPlaneHyps
  | priorPlanes
  | planeMasks
  | imageArray (i : Nat)
  | imageTexture (i : Nat)
  | depthArray (i : Nat)
  | depthTexture (i : Nat)
deriving DecidableEq

/-- Allocation events of CudaSpaceInitialization, in source order.  Note
that `preCosts` is allocated unconditionally (line 737) and again inside
the hierarchy block (line 826). -/
def cudaSpaceInitAllocs (geomConsistency hierarchy : Bool)
    (numImages : Nat) : List CudaBuf :=
  ((List.range numImages).flatMap
    (fun i => [CudaBuf.imageArray i, CudaBuf.imageTexture i]))
  ++ [CudaBuf.texObjects, CudaBuf.camerasBuf, CudaBuf.planeHyps,
      CudaBuf.costsBuf, CudaBuf.preCosts, CudaBuf.randStates,
      CudaBuf.selectedViews, CudaBuf.depthsBuf]
  ++ (if geomConsistency then
        ((List.range numImages).flatMap
          (fun i => [CudaBuf.depthArray i, CudaBuf.depthTexture i]))
        ++ [CudaBuf.texDepths]
      else [])
  ++ (if hierarchy then [CudaBuf.scaledPlaneHyps, CudaBuf.preCosts] else [])

/-- Release events of the destructor HPM::~HPM, in source order.  Note
that `preCosts` is freed unconditionally (line 115) and again inside the
hierarchy block (line 133). -/
def destructorFrees (geomConsistency hierarchy priorConsistency : Bool)
    (numImages : Nat) : List CudaBuf :=
  ((List.range numImages).flatMap
    (fun i => [CudaBuf.imageTexture i, CudaBuf.imageArray i]))
  ++ [CudaBuf.texObjects, CudaBuf.camerasBuf, CudaBuf.planeHyps,
      CudaBuf.costsBuf, CudaBuf.preCosts, CudaBuf.randStates,
      CudaBuf.selectedViews, CudaBuf.depthsBuf]
  ++ (if geomConsistency then
        ((List.range numImages).flatMap
          (fun i => [CudaBuf.depthTexture i, CudaBuf.depthArray i]))
        ++ [CudaBuf.texDepths]
      else [])
  ++ (if hierarchy then [CudaBuf.scaledPlaneHyps, CudaBuf.preCosts] else [])
  ++ (if priorConsistency then [CudaBuf.priorPlanes, CudaBuf.planeMasks] else [])

set_option maxRecDepth 4000

/-! Helper lemmas. -/

/-- Length of a flatMap is bounded by a uniform bound on the pieces. -/
theorem length_flatMap_le {α β : Type} (l : List α) (f : α → List β) (k : Nat)
    (h : ∀ a, (f a).length ≤ k) : (l.flatMap f).length ≤ k * l.length := by
  induction l with
  | nil => simp
  | cons a l ih =>
    simp only [List.flatMap_cons, List.length_append, List.length_cons]
    calc (f a).length + (l.flatMap f).length
        ≤ k + k * l.length := Nat.add_le_add (h a) ih
      _ = k * (l.length + 1) := by ring

/-- A tile emits at most two support points. -/
theorem tileEmit_length_le (s : TileScan) : (tileEmit s).length ≤ 2 := by
  unfold tileEmit
  split <;> split <;> simp

/-- The number of tile anchors along an axis of extent n. -/
theorem tileStarts_length (n : Nat) : (tileStarts n).length = (n + 4) / 5 := by
  simp [tileStarts]

/-- A 32-bit size computation is exact in the representable range. -/
theorem toInt32_eq_self {n : Int} (h0 : 0 ≤ n) (h1 : n < 2 ^ 31) :
    toInt32 n = n := by
  unfold toInt32
  omega

/-! Claim theorems. -/

/-- C1: the claim states that after the host-side post-pass every output
pixel of the upsampled depth map (and, in the prior variant, the normal
map) is finite, any NaN accelerator sample being replaced by the coarse
value at the integer-divided coordinates before the result is stored.
RunJBU does perform this replacement, but in
HPM::JointBilateralUpsampling_prior the fallback stores are followed by
unconditional stores of the raw accelerator samples, so a NaN sample
reaches the output.  Concrete evaluation: a 2 by 2 guidance image over a
1 by 1 coarse map whose only value is the finite 7, with the accelerator
returning NaN everywhere; the prior variant outputs NaN at pixel (0, 0)
where the claim requires 7, while RunJBU outputs 7 there. -/
theorem jbuPrior_nan_sample_reaches_output :
    (jointBilateralUpsamplingPrior cexImg cexSrc cexSrcNormal cexUpDepth
        cexUpNormal (fun _ => FVal.nan)
        (fun _ => (FVal.nan, FVal.nan, FVal.nan))).1.entry 0 0 = FVal.nan
    ∧ cexSrc.entry 0 0 = FVal.fin 7
    ∧ (runJBU cexImg cexSrc (fun _ => FVal.nan)).map (fun g => g.entry 0 0)
        = some (FVal.fin 7) :=
  ⟨rfl, rfl, rfl⟩

/-- C2 counterexample: the claim states that the two per-tile minima are
tracked separately over textured and non-textured pixels, texturedness
decided by the texture field.  In the source both minima range over all
pixels of the tile (the texture flag is computed but never read), so the
selection differs from the spec-partitioned selection.  Input: one 5 by
5 tile whose only textured pixel (0, 0) has photometric cost 1.9 and
confidence 0, all other pixels cost 0.5 and confidence 0.7.  The source
returns the same non-textured pixel twice, the partitioned selection
returns it once. -/
theorem supportPoints_code_differs_from_partitioned_spec :
    getSupportPoints 5 5 cexCosts cexConfidences cexTexture
      ≠ getSupportPointsSpecPartitioned 5 5 cexCosts cexConfidences cexTexture := by
  have h1 : getSupportPoints 5 5 cexCosts cexConfidences cexTexture
      = [(0, 1), (0, 1)] := by
    with_unfolding_all rfl
  have h2 : getSupportPointsSpecPartitioned 5 5 cexCosts cexConfidences cexTexture
      = [(0, 1)] := by
    with_unfolding_all rfl
  rw [h1, h2]
  decide

/-- C2 (amended): within each tile the routine tracks two minima over
all pixels with photometric cost below 2.0 regardless of the texture
field (which only feeds a flag that is never read): one of photometric
cost + 0.2 - confidence and one of photometric cost - confidence; each
candidate is accepted only if its minimum is below 0.1, so the routine
returns at most two support points per tile, and the synthetic field
with exactly one pixel of adjusted cost 0.05 and all others 0.5 yields
exactly one support point. -/
theorem supportPoints_at_most_two_per_tile_and_threshold :
    (∀ (width height : Nat) (costs confidences texture : Nat → Nat → ℚ),
      (getSupportPoints width height costs confidences texture).length
        ≤ 2 * (((width + 4) / 5) * ((height + 4) / 5)))
    ∧ getSupportPoints 5 5 synthCosts synthConfidences synthTexture = [(0, 0)] := by
  constructor
  · intro width height costs confidences texture
    have hinner : ∀ col : Nat,
        ((tileStarts height).flatMap (fun row =>
          tileOutput width height costs confidences texture col row)).length
          ≤ 2 * (tileStarts height).length := by
      intro col
      exact length_flatMap_le _ _ 2 (fun row => tileEmit_length_le _)
    calc (getSupportPoints width height costs confidences texture).length
        ≤ (2 * (tileStarts height).length) * (tileStarts width).length :=
          length_flatMap_le _ _ _ hinner
      _ = 2 * ((tileStarts width).length * (tileStarts height).length) := by ring
      _ = 2 * (((width + 4) / 5) * ((height + 4) / 5)) := by
          rw [tileStarts_length, tileStarts_length]
  · with_unfolding_all rfl

/-- C6: the claim states that upsample mode is enabled exactly when the
stored coarse resolution differs from the current reference image
resolution, and that the fourth hypothesis component then holds the
stored cost (the stored depth otherwise).  The source compares the
stored column count against the image row count and the stored row
count against the image column count, so on an equal non-square
resolution (stored map 2 columns by 3 rows, reference image 3 rows by 2
columns) the flag is set and the fourth component holds the cost sample
5 where the claim requires the depth sample 9. -/
theorem hierarchy_upsample_flag_on_equal_resolution :
    (cudaSpaceInitHierarchy 2 3 3 2 (fun _ _ => (0, 0, 0)) (fun _ _ => 5)
        (fun _ _ => 9)).1 = true
    ∧ ((cudaSpaceInitHierarchy 2 3 3 2 (fun _ _ => (0, 0, 0)) (fun _ _ => 5)
        (fun _ _ => 9)).2 0 0).w = 5 :=
  ⟨rfl, rfl⟩

/-- C9: the claim states that on teardown each allocated device buffer
is freed exactly once and none twice.  With hierarchy mode enabled the
destructor frees the pre-cost buffer twice (lines 115 and 133) and
CudaSpaceInitialization allocates it twice (lines 737 and 826), the
second allocation overwriting the only pointer to the first. -/
theorem pre_costs_allocated_and_freed_twice :
    (destructorFrees false true false 1).count CudaBuf.preCosts = 2
    ∧ (cudaSpaceInitAllocs false true 1).count CudaBuf.preCosts = 2 := by
  decide

/-- C10: after input initialization the engine depth search range is the
stated range of the reference camera widened by the fixed factors:
GetMinDepth returns 0.6 times its depth_min and GetMaxDepth returns 1.2
times its depth_max. -/
theorem depth_range_widening (cam0 : Camera) (params : PatchMatchParams) :
    GetMinDepth (inuputInitializationDepthRange cam0 params)
        = 0.6 * cam0.depth_min
    ∧ GetMaxDepth (inuputInitializationDepthRange cam0 params)
        = 1.2 * cam0.depth_max :=
  ⟨mul_comm _ _, mul_comm _ _⟩

/-- C3: the plane vector returned by the fitting routines has a spatial
part of unit Euclidean norm (stated in squared form), its offset
component is made positive by the sign flip (`norm2 *= -1` when the
offset is negative), and the normalized result is invariant under
nonzero rescaling of the solver output, so geometrically identical
planes obtain a consistent sign convention regardless of vertex order.
`sqrtVal` stands for the library square root of the spatial squared
norm, constrained by its defining property; the hypothesis
`0 < sqrtVal` says the spatial part of the solver output is nonzero,
and `v.w ≠ 0` that the fitted plane does not pass through the camera
center (a plane through the center projects to a line, so its support
pixels are collinear and form no genuine triangle). -/
theorem prior_plane_normalization (v : Vec4Q) (sqrtVal : ℚ)
    (hsq : sqrtVal ^ 2 = v.x ^ 2 + v.y ^ 2 + v.z ^ 2) (hpos : 0 < sqrtVal)
    (hw : v.w ≠ 0) :
    ((normalizePlaneVec v sqrtVal).x ^ 2 + (normalizePlaneVec v sqrtVal).y ^ 2
        + (normalizePlaneVec v sqrtVal).z ^ 2 = 1)
    ∧ 0 < (normalizePlaneVec v sqrtVal).w
    ∧ ∀ c : ℚ, c ≠ 0 →
        normalizePlaneVec (Vec4Q.scale c v) (|c| * sqrtVal)
          = normalizePlaneVec v sqrtVal := by
  have hpn2 : (planeNorm2 v sqrtVal) ^ 2 = sqrtVal ^ 2 := by
    unfold planeNorm2
    split <;> ring
  have hpn0 : planeNorm2 v sqrtVal ≠ 0 := by
    unfold planeNorm2
    split
    · exact neg_ne_zero.mpr (ne_of_gt hpos)
    · exact ne_of_gt hpos
  refine ⟨?_, ?_, ?_⟩
  · show (v.x / planeNorm2 v sqrtVal) ^ 2 + (v.y / planeNorm2 v sqrtVal) ^ 2
        + (v.z / planeNorm2 v sqrtVal) ^ 2 = 1
    rw [div_pow, div_pow, div_pow, div_add_div_same, div_add_div_same, hpn2,
      ← hsq]
    exact div_self (pow_ne_zero 2 (ne_of_gt hpos))
  · show 0 < v.w / planeNorm2 v sqrtVal
    unfold planeNorm2
    split
    · next hneg => exact div_pos_of_neg_of_neg hneg (by linarith)
    · next hnneg =>
        exact div_pos (lt_of_le_of_ne (not_lt.mp hnneg) (Ne.symm hw)) hpos
  · intro c hc
    have hpn' : planeNorm2 (Vec4Q.scale c v) (|c| * sqrtVal)
        = c * planeNorm2 v sqrtVal := by
      unfold planeNorm2 Vec4Q.scale
      rcases lt_trichotomy c 0 with hcneg | hc0 | hcpos
      · rcases lt_trichotomy v.w 0 with hwneg | hw0 | hwpos
        · rw [if_neg (by nlinarith : ¬ c * v.w < 0), if_pos hwneg,
            abs_of_neg hcneg]
          ring
        · exact absurd hw0 hw
        · rw [if_pos (by nlinarith : c * v.w < 0), if_neg (by linarith),
            abs_of_neg hcneg]
          ring
      · exact absurd hc0 hc
      · rcases lt_trichotomy v.w 0 with hwneg | hw0 | hwpos
        · rw [if_pos (by nlinarith : c * v.w < 0), if_pos hwneg,
            abs_of_pos hcpos]
          ring
        · exact absurd hw0 hw
        · rw [if_neg (by nlinarith : ¬ c * v.w < 0), if_neg (by linarith),
            abs_of_pos hcpos]
    show Vec4Q.mk ((Vec4Q.scale c v).x / planeNorm2 (Vec4Q.scale c v) (|c| * sqrtVal))
        ((Vec4Q.scale c v).y / planeNorm2 (Vec4Q.scale c v) (|c| * sqrtVal))
        ((Vec4Q.scale c v).z / planeNorm2 (Vec4Q.scale c v) (|c| * sqrtVal))
        ((Vec4Q.scale c v).w / planeNorm2 (Vec4Q.scale c v) (|c| * sqrtVal)) = _
    rw [hpn']
    show Vec4Q.mk (c * v.x / (c * planeNorm2 v sqrtVal))
        (c * v.y / (c * planeNorm2 v sqrtVal))
        (c * v.z / (c * planeNorm2 v sqrtVal))
        (c * v.w / (c * planeNorm2 v sqrtVal)) = _
    rw [mul_div_mul_left _ _ hc, mul_div_mul_left _ _ hc,
      mul_div_mul_left _ _ hc, mul_div_mul_left _ _ hc]
    rfl

/-- Witness for the plane-normalization theorem at the solver output
(1, 2, 2, 5), whose spatial norm is 3, with rescaling factor -2. -/
theorem prior_plane_normalization_witness :
    ((3 : ℚ) ^ 2 = (Vec4Q.mk 1 2 2 5).x ^ 2 + (Vec4Q.mk 1 2 2 5).y ^ 2
        + (Vec4Q.mk 1 2 2 5).z ^ 2)
    ∧ (0 : ℚ) < 3 ∧ (Vec4Q.mk 1 2 2 5).w ≠ 0 ∧ (-2 : ℚ) ≠ 0
    ∧ ((normalizePlaneVec (Vec4Q.mk 1 2 2 5) 3).x ^ 2
        + (normalizePlaneVec (Vec4Q.mk 1 2 2 5) 3).y ^ 2
        + (normalizePlaneVec (Vec4Q.mk 1 2 2 5) 3).z ^ 2 = 1)
    ∧ 0 < (normalizePlaneVec (Vec4Q.mk 1 2 2 5) 3).w
    ∧ normalizePlaneVec (Vec4Q.scale (-2) (Vec4Q.mk 1 2 2 5)) (|(-2 : ℚ)| * 3)
        = normalizePlaneVec (Vec4Q.mk 1 2 2 5) 3 :=
  ⟨by norm_num, by norm_num, by norm_num, by norm_num,
   (prior_plane_normalization (Vec4Q.mk 1 2 2 5) 3 (by norm_num) (by norm_num)
      (by norm_num)).1,
   (prior_plane_normalization (Vec4Q.mk 1 2 2 5) 3 (by norm_num) (by norm_num)
      (by norm_num)).2.1,
   (prior_plane_normalization (Vec4Q.mk 1 2 2 5) 3 (by norm_num) (by norm_num)
      (by norm_num)).2.2 (-2) (by norm_num)⟩

/-- C4: writing a depth map (channel count 1) or a normal map (channel
count 3) of in-range positive dimensions and then reading the produced
file succeeds (return value 0) and reproduces the same dimensions and
exactly the same sample bit patterns. -/
theorem dmb_round_trip (m : MatF) (m3 : MatV3)
    (hr : 0 < m.rows) (hc : 0 < m.cols) (hb : m.rows * m.cols < 2 ^ 31)
    (hl : m.data.length = m.rows * m.cols)
    (hr3 : 0 < m3.rows) (hc3 : 0 < m3.cols)
    (hb3 : m3.rows * m3.cols * 3 < 2 ^ 31)
    (hl3 : m3.data.length = m3.rows * m3.cols * 3) :
    readDepthDmbFile (some (writeDepthDmb m)) = (0, some m)
    ∧ readNormalDmbFile (some (writeNormalDmb m3)) = (0, some m3) := by
  constructor
  · have hw : toInt32 ((m.cols : Int) * (m.rows : Int) * 1)
        = ((m.rows * m.cols : Nat) : Int) := by
      have e : (m.cols : Int) * (m.rows : Int) * 1 = ((m.rows * m.cols : Nat) : Int) := by
        push_cast
        ring
      rw [e]
      exact toInt32_eq_self (Int.natCast_nonneg _) (by exact_mod_cast hb)
    have hrd : toInt32 ((m.rows : Int) * (m.cols : Int) * 1)
        = ((m.rows * m.cols : Nat) : Int) := by
      have e : (m.rows : Int) * (m.cols : Int) * 1 = ((m.rows * m.cols : Nat) : Int) := by
        push_cast
        ring
      rw [e]
      exact toInt32_eq_self (Int.natCast_nonneg _) (by exact_mod_cast hb)
    have htake : m.data.take (m.rows * m.cols) = m.data := by
      rw [← hl]
      exact List.take_length m.data
    have hfile : writeDepthDmb m = DmbFile.mk 1 m.rows m.cols 1 m.data := by
      unfold writeDepthDmb
      rw [hw, Int.toNat_natCast, htake]
    rw [hfile]
    simp only [readDepthDmbFile, hrd, Int.toNat_natCast, htake, hl, ne_eq]
    simp only [Nat.sub_self, List.replicate_zero, List.append_nil, not_true,
      if_false]
  · have hw : toInt32 ((m3.cols : Int) * (m3.rows : Int) * 3)
        = ((m3.rows * m3.cols * 3 : Nat) : Int) := by
      have e : (m3.cols : Int) * (m3.rows : Int) * 3
          = ((m3.rows * m3.cols * 3 : Nat) : Int) := by
        push_cast
        ring
      rw [e]
      exact toInt32_eq_self (Int.natCast_nonneg _) (by exact_mod_cast hb3)
    have hrd : toInt32 ((m3.rows : Int) * (m3.cols : Int) * 3)
        = ((m3.rows * m3.cols * 3 : Nat) : Int) := by
      have e : (m3.rows : Int) * (m3.cols : Int) * 3
          = ((m3.rows * m3.cols * 3 : Nat) : Int) := by
        push_cast
        ring
      rw [e]
      exact toInt32_eq_self (Int.natCast_nonneg _) (by exact_mod_cast hb3)
    have htake : m3.data.take (m3.rows * m3.cols * 3) = m3.data := by
      rw [← hl3]
      exact List.take_length m3.data
    have hfile : writeNormalDmb m3 = DmbFile.mk 1 m3.rows m3.cols 3 m3.data := by
      unfold writeNormalDmb
      rw [hw, Int.toNat_natCast, htake]
    rw [hfile]
    simp only [readNormalDmbFile, hrd, Int.toNat_natCast, htake, hl3, ne_eq]
    simp only [Nat.sub_self, List.replicate_zero, List.append_nil, not_true,
      if_false]

/-- Witness for the round-trip theorem at a 1 by 2 depth map and a
1 by 1 normal map. -/
theorem dmb_round_trip_witness :
    0 < (MatF.mk 1 2 [10, 20]).rows ∧ 0 < (MatF.mk 1 2 [10, 20]).cols
    ∧ (MatF.mk 1 2 [10, 20]).rows * (MatF.mk 1 2 [10, 20]).cols < 2 ^ 31
    ∧ (MatF.mk 1 2 [10, 20]).data.length
        = (MatF.mk 1 2 [10, 20]).rows * (MatF.mk 1 2 [10, 20]).cols
    ∧ readDepthDmbFile (some (writeDepthDmb (MatF.mk 1 2 [10, 20])))
        = (0, some (MatF.mk 1 2 [10, 20]))
    ∧ readNormalDmbFile (some (writeNormalDmb (MatV3.mk 1 1 [1, 2, 3])))
        = (0, some (MatV3.mk 1 1 [1, 2, 3])) :=
  ⟨by decide, by decide, by decide, by decide,
   (dmb_round_trip (MatF.mk 1 2 [10, 20]) (MatV3.mk 1 1 [1, 2, 3])
      (by decide) (by decide) (by decide) (by decide)
      (by decide) (by decide) (by decide) (by decide)).1,
   (dmb_round_trip (MatF.mk 1 2 [10, 20]) (MatV3.mk 1 1 [1, 2, 3])
      (by decide) (by decide) (by decide) (by decide)
      (by decide) (by decide) (by decide) (by decide)).2⟩

/-- Shape of a successful depth read: helper for the failure-signaling
theorem. -/
theorem readDepthDmbFile_ok (d : DmbFile) (h1 : d.type = 1) :
    readDepthDmbFile (some d)
      = (0, some (MatF.mk d.h.toNat d.w.toNat
          ((d.data.take (toInt32 (d.h * d.w * d.nb)).toNat)
            ++ List.replicate (d.h.toNat * d.w.toNat
                - (d.data.take (toInt32 (d.h * d.w * d.nb)).toNat).length) 0))) := by
  simp [readDepthDmbFile, h1]

/-- Shape of a successful normal read: helper for the failure-signaling
theorem. -/
theorem readNormalDmbFile_ok (d : DmbFile) (h1 : d.type = 1) :
    readNormalDmbFile (some d)
      = (0, some (MatV3.mk d.h.toNat d.w.toNat
          ((d.data.take (toInt32 (d.h * d.w * d.nb)).toNat)
            ++ List.replicate (d.h.toNat * d.w.toNat * 3
                - (d.data.take (toInt32 (d.h * d.w * d.nb)).toNat).length) 0))) := by
  simp [readNormalDmbFile, h1]

/-- C8: the read functions return -1 exactly when the file cannot be
opened (modelled as `none`) or the header type tag is not 1, in which
case the output matrix is not produced; otherwise they return 0 with
the matrix allocated to the header height by width dimensions.  The
embedding is total, so a failed read returns to its caller rather than
terminating. -/
theorem read_dmb_failure_signaling :
    readDepthDmbFile none = (-1, none)
    ∧ readNormalDmbFile none = (-1, none)
    ∧ (∀ d : DmbFile, d.type ≠ 1 →
        readDepthDmbFile (some d) = (-1, none)
        ∧ readNormalDmbFile (some d) = (-1, none))
    ∧ (∀ d : DmbFile, d.type = 1 → 0 ≤ d.h → 0 ≤ d.w →
        (readDepthDmbFile (some d)).1 = 0
        ∧ (readNormalDmbFile (some d)).1 = 0
        ∧ (∃ mat, (readDepthDmbFile (some d)).2 = some mat
            ∧ (mat.rows : Int) = d.h ∧ (mat.cols : Int) = d.w)
        ∧ (∃ mat3, (readNormalDmbFile (some d)).2 = some mat3
            ∧ (mat3.rows : Int) = d.h ∧ (mat3.cols : Int) = d.w)) := by
  refine ⟨rfl, rfl, ?_, ?_⟩
  · intro d h
    constructor
    · simp [readDepthDmbFile, h]
    · simp [readNormalDmbFile, h]
  · intro d h1 h2 h3
    refine ⟨?_, ?_, ?_, ?_⟩
    · rw [readDepthDmbFile_ok d h1]
    · rw [readNormalDmbFile_ok d h1]
    · rw [readDepthDmbFile_ok d h1]
      exact ⟨_, rfl, Int.toNat_of_nonneg h2, Int.toNat_of_nonneg h3⟩
    · rw [readNormalDmbFile_ok d h1]
      exact ⟨_, rfl, Int.toNat_of_nonneg h2, Int.toNat_of_nonneg h3⟩

/-- Witness for the failure-signaling theorem: a file with type tag 0 is
rejected with -1, a file with type tag 1 and dimensions 3 by 4 is
accepted with 0 and a 3 by 4 matrix. -/
theorem read_dmb_failure_signaling_witness :
    (DmbFile.mk 0 5 6 1 []).type ≠ 1
    ∧ readDepthDmbFile (some (DmbFile.mk 0 5 6 1 [])) = (-1, none)
    ∧ (DmbFile.mk 1 3 4 1 []).type = 1
    ∧ (0 : Int) ≤ (DmbFile.mk 1 3 4 1 []).h
    ∧ (0 : Int) ≤ (DmbFile.mk 1 3 4 1 []).w
    ∧ (readDepthDmbFile (some (DmbFile.mk 1 3 4 1 []))).1 = 0
    ∧ (∃ mat, (readDepthDmbFile (some (DmbFile.mk 1 3 4 1 []))).2 = some mat
        ∧ (mat.rows : Int) = (DmbFile.mk 1 3 4 1 []).h
        ∧ (mat.cols : Int) = (DmbFile.mk 1 3 4 1 []).w) :=
  ⟨by decide,
   (read_dmb_failure_signaling.2.2.1 (DmbFile.mk 0 5 6 1 []) (by decide)).1,
   rfl, by decide, by decide,
   (read_dmb_failure_signaling.2.2.2 (DmbFile.mk 1 3 4 1 []) rfl (by decide)
      (by decide)).1,
   (read_dmb_failure_signaling.2.2.2 (DmbFile.mk 1 3 4 1 []) rfl (by decide)
      (by decide)).2.2.1⟩

/-- C5: at both rescaling sites, whenever the image is actually
resampled (the equal-resolution early return, respectively the
within-bound skip, does not fire), the paired camera record is updated
jointly with it: K[0] and K[2] are multiplied by the horizontal scale
factor, K[4] and K[5] by the vertical one, the recorded width and
height become the resized image dimensions, and every other entry of K
as well as R, t and the depth range are unchanged. -/
theorem rescale_updates_camera_jointly
    (srcCols srcRows dCols dRows maxSize cols rows : Int) (cam : Camera)
    (hresize : ¬(dCols = srcCols ∧ dRows = srcRows))
    (hshrink : ¬(cols ≤ maxSize ∧ rows ≤ maxSize)) :
    ((rescaleImageAndCamera srcCols srcRows dCols dRows cam).K 0
        = cam.K 0 * ((dCols : ℚ) / (srcCols : ℚ))
      ∧ (rescaleImageAndCamera srcCols srcRows dCols dRows cam).K 2
        = cam.K 2 * ((dCols : ℚ) / (srcCols : ℚ))
      ∧ (rescaleImageAndCamera srcCols srcRows dCols dRows cam).K 4
        = cam.K 4 * ((dRows : ℚ) / (srcRows : ℚ))
      ∧ (rescaleImageAndCamera srcCols srcRows dCols dRows cam).K 5
        = cam.K 5 * ((dRows : ℚ) / (srcRows : ℚ))
      ∧ (rescaleImageAndCamera srcCols srcRows dCols dRows cam).width = dCols
      ∧ (rescaleImageAndCamera srcCols srcRows dCols dRows cam).height = dRows
      ∧ (∀ i : Fin 9, i ≠ 0 → i ≠ 2 → i ≠ 4 → i ≠ 5 →
          (rescaleImageAndCamera srcCols srcRows dCols dRows cam).K i = cam.K i)
      ∧ (rescaleImageAndCamera srcCols srcRows dCols dRows cam).R = cam.R
      ∧ (rescaleImageAndCamera srcCols srcRows dCols dRows cam).t = cam.t
      ∧ (rescaleImageAndCamera srcCols srcRows dCols dRows cam).depth_min
          = cam.depth_min
      ∧ (rescaleImageAndCamera srcCols srcRows dCols dRows cam).depth_max
          = cam.depth_max)
    ∧ ((inuputInitializationRescale maxSize cols rows cam).K 0
        = cam.K 0 * (((round ((cols : ℚ)
            * min ((maxSize : ℚ) / (cols : ℚ)) ((maxSize : ℚ) / (rows : ℚ))) : Int) : ℚ)
            / (cols : ℚ))
      ∧ (inuputInitializationRescale maxSize cols rows cam).K 2
        = cam.K 2 * (((round ((cols : ℚ)
            * min ((maxSize : ℚ) / (cols : ℚ)) ((maxSize : ℚ) / (rows : ℚ))) : Int) : ℚ)
            / (cols : ℚ))
      ∧ (inuputInitializationRescale maxSize cols rows cam).K 4
        = cam.K 4 * (((round ((rows : ℚ)
            * min ((maxSize : ℚ) / (cols : ℚ)) ((maxSize : ℚ) / (rows : ℚ))) : Int) : ℚ)
            / (rows : ℚ))
      ∧ (inuputInitializationRescale maxSize cols rows cam).K 5
        = cam.K 5 * (((round ((rows : ℚ)
            * min ((maxSize : ℚ) / (cols : ℚ)) ((maxSize : ℚ) / (rows : ℚ))) : Int) : ℚ)
            / (rows : ℚ))
      ∧ (inuputInitializationRescale maxSize cols rows cam).width
          = round ((cols : ℚ)
            * min ((maxSize : ℚ) / (cols : ℚ)) ((maxSize : ℚ) / (rows : ℚ)))
      ∧ (inuputInitializationRescale maxSize cols rows cam).height
          = round ((rows : ℚ)
            * min ((maxSize : ℚ) / (cols : ℚ)) ((maxSize : ℚ) / (rows : ℚ)))
      ∧ (∀ i : Fin 9, i ≠ 0 → i ≠ 2 → i ≠ 4 → i ≠ 5 →
          (inuputInitializationRescale maxSize cols rows cam).K i = cam.K i)
      ∧ (inuputInitializationRescale maxSize cols rows cam).R = cam.R
      ∧ (inuputInitializationRescale maxSize cols rows cam).t = cam.t) := by
  have e1 : rescaleImageAndCamera srcCols srcRows dCols dRows cam
      = { cam with
          K := rescaleK cam.K ((dCols : ℚ) / (srcCols : ℚ))
            ((dRows : ℚ) / (srcRows : ℚ)),
          width := dCols, height := dRows } := by
    unfold rescaleImageAndCamera
    rw [if_neg hresize]
  have e2 : inuputInitializationRescale maxSize cols rows cam
      = { cam with
          K := rescaleK cam.K
            (((round ((cols : ℚ)
              * min ((maxSize : ℚ) / (cols : ℚ)) ((maxSize : ℚ) / (rows : ℚ))) : Int) : ℚ)
              / (cols : ℚ))
            (((round ((rows : ℚ)
              * min ((maxSize : ℚ) / (cols : ℚ)) ((maxSize : ℚ) / (rows : ℚ))) : Int) : ℚ)
              / (rows : ℚ)),
          height := round ((rows : ℚ)
            * min ((maxSize : ℚ) / (cols : ℚ)) ((maxSize : ℚ) / (rows : ℚ))),
          width := round ((cols : ℚ)
            * min ((maxSize : ℚ) / (cols : ℚ)) ((maxSize : ℚ) / (rows : ℚ))) } := by
    unfold inuputInitializationRescale
    rw [if_neg hshrink]
  rw [e1, e2]
  have hK : ∀ (K : Fin 9 → ℚ) (sx sy : ℚ) (i : Fin 9),
      i ≠ 0 → i ≠ 2 → i ≠ 4 → i ≠ 5 → rescaleK K sx sy i = K i := by
    intro K sx sy i h0 h2 h4 h5
    unfold rescaleK
    rw [if_neg h0, if_neg h2, if_neg h4, if_neg h5]
  exact ⟨⟨rfl, rfl, rfl, rfl, rfl, rfl, hK _ _ _, rfl, rfl, rfl, rfl⟩,
    ⟨rfl, rfl, rfl, rfl, rfl, rfl, hK _ _ _, rfl, rfl⟩⟩

/-- Concrete camera record used by the rescaling witness. -/
def camW : Camera :=
  { K := fun i => ((i : Nat) : ℚ) + 10,
    R := fun i => ((i : Nat) : ℚ) + 20,
    t := fun i => ((i : Nat) : ℚ) + 30,
    height := 4, width := 6, depth_min := 2, depth_max := 3 }

/-- Witness for the joint-rescaling theorem: resizing from 6 by 4 to
3 by 2, and shrinking a 10 by 5 image under the bound 5. -/
theorem rescale_updates_camera_jointly_witness :
    ¬((3 : Int) = 6 ∧ (2 : Int) = 4)
    ∧ ¬((10 : Int) ≤ 5 ∧ (5 : Int) ≤ 5)
    ∧ (rescaleImageAndCamera 6 4 3 2 camW).K 0
        = camW.K 0 * (((3 : Int) : ℚ) / ((6 : Int) : ℚ))
    ∧ (rescaleImageAndCamera 6 4 3 2 camW).width = 3
    ∧ (rescaleImageAndCamera 6 4 3 2 camW).K 1 = camW.K 1
    ∧ (inuputInitializationRescale 5 10 5 camW).K 2
        = camW.K 2 * (((round (((10 : Int) : ℚ)
          * min (((5 : Int) : ℚ) / ((10 : Int) : ℚ))
                (((5 : Int) : ℚ) / ((5 : Int) : ℚ))) : Int) : ℚ) / ((10 : Int) : ℚ))
    ∧ (inuputInitializationRescale 5 10 5 camW).K 5
        = camW.K 5 * (((round (((5 : Int) : ℚ)
          * min (((5 : Int) : ℚ) / ((10 : Int) : ℚ))
                (((5 : Int) : ℚ) / ((5 : Int) : ℚ))) : Int) : ℚ) / ((5 : Int) : ℚ))
    ∧ (inuputInitializationRescale 5 10 5 camW).width
        = round (((10 : Int) : ℚ)
          * min (((5 : Int) : ℚ) / ((10 : Int) : ℚ))
                (((5 : Int) : ℚ) / ((5 : Int) : ℚ))) :=
  ⟨by decide, by decide,
   (rescale_updates_camera_jointly 6 4 3 2 5 10 5 camW (by decide) (by decide)).1.1,
   (rescale_updates_camera_jointly 6 4 3 2 5 10 5 camW (by decide) (by decide)).1.2.2.2.2.1,
   (rescale_updates_camera_jointly 6 4 3 2 5 10 5 camW (by decide)
      (by decide)).1.2.2.2.2.2.2.1 1 (by decide) (by decide) (by decide) (by decide),
   (rescale_updates_camera_jointly 6 4 3 2 5 10 5 camW (by decide) (by decide)).2.2.1,
   (rescale_updates_camera_jointly 6 4 3 2 5 10 5 camW (by decide) (by decide)).2.2.2.2.1,
   (rescale_updates_camera_jointly 6 4 3 2 5 10 5 camW (by decide) (by decide)).2.2.2.2.2.1⟩

/-- C7: when the guidance image and the coarse depth map have equal
(positive) resolutions the integer scale factor is 1, so both
upsampling routines skip entirely: RunJBU produces no new depth map and
JointBilateralUpsampling_prior leaves the caller-supplied output
buffers bit-identical to what was passed in, so the coarse map remains
in use unchanged. -/
theorem equal_resolution_upsampling_noop
    (scaledImage srcDepthmap : GridF) (srcNormal : NormalGridF)
    (upDepth : GridF) (upNormal : NormalGridF)
    (depth_h : Nat → FVal) (normal_h : Nat → FVal × FVal × FVal)
    (hr : scaledImage.rows = srcDepthmap.rows)
    (hc : scaledImage.cols = srcDepthmap.cols)
    (hr0 : 0 < srcDepthmap.rows) (hc0 : 0 < srcDepthmap.cols) :
    runJBU scaledImage srcDepthmap depth_h = none
    ∧ jointBilateralUpsamplingPrior scaledImage srcDepthmap srcNormal
        upDepth upNormal depth_h normal_h = (upDepth, upNormal) := by
  constructor
  · simp only [runJBU]
    rw [hr, hc, Nat.div_self hr0, Nat.div_self hc0]
    simp
  · simp only [jointBilateralUpsamplingPrior]
    rw [hr, hc, Nat.div_self hr0, Nat.div_self hc0]
    simp

/-- Witness for the no-op upsampling theorem: a 1 by 1 guidance image
over a 1 by 1 coarse map, with an all-NaN accelerator buffer. -/
theorem equal_resolution_upsampling_noop_witness :
    cexSrc.rows = cexSrc.rows ∧ cexSrc.cols = cexSrc.cols
    ∧ 0 < cexSrc.rows ∧ 0 < cexSrc.cols
    ∧ runJBU cexSrc cexSrc (fun _ => FVal.nan) = none
    ∧ jointBilateralUpsamplingPrior cexSrc cexSrc cexSrcNormal cexUpDepth
        cexUpNormal (fun _ => FVal.nan) (fun _ => (FVal.nan, FVal.nan, FVal.nan))
        = (cexUpDepth, cexUpNormal) :=
  ⟨rfl, rfl, by decide, by decide,
   (equal_resolution_upsampling_noop cexSrc cexSrc cexSrcNormal cexUpDepth
      cexUpNormal (fun _ => FVal.nan) (fun _ => (FVal.nan, FVal.nan, FVal.nan))
      rfl rfl (by decide) (by decide)).1,
   (equal_resolution_upsampling_noop cexSrc cexSrc cexSrcNormal cexUpDepth
      cexUpNormal (fun _ => FVal.nan) (fun _ => (FVal.nan, FVal.nan, FVal.nan))
      rfl rfl (by decide) (by decide)).2⟩

end HPMMVS
